import Mathlib

/-!
# Verification of the RefData-Hub semantic matcher

A shallow embedding of `api/app/matcher.py` (`SemanticMatcher`) together with
the data model it consumes (`CanonicalValue`, `SystemConfig` from
`api/app/models.py` and `MatchCandidate` from `api/app/schemas.py`).

Modelling conventions:
* Python `float` scores are modelled as `ℚ`.
* Python machine behaviour that lives outside the repository (the sklearn
  TF-IDF vectorizer, `json.loads`, `float(str)`, the two network transports)
  is modelled by oracles collected in `PyEnv`; theorems quantify over all
  oracle behaviours.
* Python exceptions are modelled with `Except PyErr`; a `try/except` block of
  the source corresponds to a `match` on the oracle's `Except` value.
* `str.strip` / `str.lower` / `str.casefold` / `str.split()` are modelled on
  `String.data` with ASCII semantics (`casefold` and `lower` coincide there).
-/

namespace RefdataHub

/-- Whitespace characters recognised by the model of Python's `str.strip()` /
`str.split()` (ASCII whitespace). -/
def pyWS (c : Char) : Bool :=
  c = ' ' || c = '\t' || c = '\n' || c = '\r' || c = '\x0b' || c = '\x0c'

/-- Strip characters satisfying `p` from both ends of a string
(models Python's `str.strip(chars)`). -/
def stripChars (p : Char → Bool) (s : String) : String :=
  ⟨(((s.data.dropWhile p).reverse.dropWhile p).reverse)⟩

/-- Models Python's `str.strip()` (no argument: strip whitespace). -/
def pyStrip (s : String) : String := stripChars pyWS s

/-- ASCII lower-casing of one character; models the effect of Python's
`str.lower()` (and of `str.casefold()`, which agrees with it on ASCII). -/
def pyLowerChar (c : Char) : Char :=
  if 65 ≤ c.toNat ∧ c.toNat ≤ 90 then Char.ofNat (c.toNat + 32) else c

/-- Models Python's `str.lower()`. -/
def pyLower (s : String) : String := ⟨s.data.map pyLowerChar⟩

/-- Models Python's `str.casefold()` (ASCII model, coincides with `lower`). -/
def pyCasefold (s : String) : String := pyLower s

/-- Models Python's single-character `str.replace('-', ' ')` used by
`SemanticMatcher._tokenize`. -/
def replaceHyphen (s : String) : String :=
  ⟨s.data.map (fun c => if c = '-' then ' ' else c)⟩

/-- Helper of `pySplitWS`: the accumulator holds the current (reversed)
in-progress token. -/
def splitWSAux : List Char → List Char → List String
  | [], acc => if acc.isEmpty then [] else [⟨acc.reverse⟩]
  | c :: rest, acc =>
    if pyWS c then
      if acc.isEmpty then splitWSAux rest []
      else (⟨acc.reverse⟩ : String) :: splitWSAux rest []
    else splitWSAux rest (c :: acc)

/-- Models Python's `str.split()` with no arguments: split on whitespace
runs, producing no empty tokens. -/
def pySplitWS (s : String) : List String := splitWSAux s.data []

/-- `SemanticMatcher._tokenize`:
`{token.lower() for token in text.replace('-', ' ').split() if token}`
(the `if token` filter is vacuous because `split()` produces no empty
tokens). -/
def tokenize (text : String) : Finset String :=
  ((pySplitWS (replaceHyphen text)).map pyLower).toFinset

/-- `max(0.0, min(1.0, score))` clamping used on every scoring path. -/
def clamp01 (x : ℚ) : ℚ := max 0 (min 1 x)

/-- Models Python's `round(x, 4)`: round to 4 decimal places.  (Python uses
round-half-to-even on binary floats; the tie-breaking direction is irrelevant
to every claim, so the standard `round` on `ℚ` is used.) -/
def round4 (x : ℚ) : ℚ := ((round (x * 10000) : ℤ) : ℚ) / 10000

/-- `api/app/models.py` `CanonicalValue` — the fields the matcher reads.
`id` is `Optional[int]`; `attributes`/timestamps are never read by the
matcher and are omitted. -/
structure CanonicalValue where
  id : Option ℤ
  dimension : String
  canonical_label : String
  description : Option String
deriving DecidableEq, Repr

/-- `api/app/models.py` `SystemConfig` — the fields the matcher reads.
`llm_mode` is not a declared column but is set dynamically by callers and
read through `self.config.llm_mode or "online"`; it is modelled as an
optional string.  `top_k : int`. -/
structure SystemConfig where
  matcher_backend : String
  llm_mode : Option String
  llm_model : Option String
  llm_api_base : Option String
  llm_api_key : Option String
  top_k : ℤ
deriving DecidableEq, Repr

/-- `api/app/schemas.py` `MatchCandidate` (score modelled as `ℚ`). -/
structure MatchCandidate where
  canonical_id : ℤ
  canonical_label : String
  dimension : String
  description : Option String
  score : ℚ
deriving DecidableEq, Repr

/-- `SemanticMatcher._canonical_as_sentence`: label alone, or
`label + ". " + description` when the description is truthy (non-`None`,
non-empty). -/
def canonicalAsSentence (canonical : CanonicalValue) : String :=
  match canonical.description with
  | some d => if d = "" then canonical.canonical_label
              else canonical.canonical_label ++ ". " ++ d
  | none => canonical.canonical_label

/-- Python's `x or default` on an `int` (`0` is falsy). -/
def pyOrInt (x default : ℤ) : ℤ := if x = 0 then default else x

/-- Python's `x or default` on an `Optional[str]` (`None` and `""` falsy). -/
def pyOrStr (x : Option String) (default : String) : String :=
  match x with
  | some s => if s = "" then default else s
  | none => default

/-- Truthiness of an `Optional[str]` (`not self.config.llm_api_key`, …). -/
def truthyOptStr : Option String → Bool
  | some s => s ≠ ""
  | none => false

/-- `top_k = max(1, self.config.top_k or 5)` — shared by all three ranking
paths (matcher.py lines 74, 107, 262). -/
def topK (cfg : SystemConfig) : ℤ := max 1 (pyOrInt cfg.top_k 5)

/-- Construction of one `MatchCandidate` from a canonical value and a final
(already rounded) score; `canonical_id=canonical.id or 0`. -/
def matchOf (canonical : CanonicalValue) (score : ℚ) : MatchCandidate :=
  { canonical_id := canonical.id.getD 0
    canonical_label := canonical.canonical_label
    dimension := canonical.dimension
    description := canonical.description
    score := score }

/-- The sort relation realised by `list.sort(key=lambda item: item.score,
reverse=True)`: scores descending.  Python's sort is stable; so is
`List.insertionSort`, which therefore models it faithfully. -/
def scoreGE (a b : MatchCandidate) : Prop := b.score ≤ a.score

instance : DecidableRel scoreGE := fun a b =>
  inferInstanceAs (Decidable (b.score ≤ a.score))

instance : IsTotal MatchCandidate scoreGE :=
  ⟨fun a b => le_total b.score a.score⟩

instance : IsTrans MatchCandidate scoreGE :=
  ⟨fun _ _ _ h1 h2 => le_trans h2 h1⟩

/-- Stable descending sort by score. -/
def sortDesc (l : List MatchCandidate) : List MatchCandidate :=
  l.insertionSort scoreGE

/-- Python exception classes that appear in the matcher's control flow. -/
inductive PyErr where
  | valueError
  | typeError
  | attributeError
  | jsonDecodeError
  | transportError
deriving DecidableEq, Repr

/-- Decoded-JSON / Python values as produced by `json.loads` and by
`response.json()`. -/
inductive PyVal where
  | none
  | bool (b : Bool)
  | int (n : ℤ)
  | float (q : ℚ)
  | str (s : String)
  | list (xs : List PyVal)
  | dict (entries : List (String × PyVal))

/-- Python truthiness of a decoded value. -/
def PyVal.truthy : PyVal → Bool
  | .none => false
  | .bool b => b
  | .int n => n ≠ 0
  | .float q => q ≠ 0
  | .str s => s ≠ ""
  | .list xs => ¬ xs.isEmpty
  | .dict es => ¬ es.isEmpty

/-- `isinstance(v, dict)`. -/
def PyVal.isDict : PyVal → Bool
  | .dict _ => true
  | _ => false

/-- `d.get(k)` on a decoded JSON object; a duplicated key keeps its last
binding, as in a Python `dict`. -/
def dictGet : List (String × PyVal) → String → Option PyVal
  | [], _ => Option.none
  | (k', v) :: rest, k =>
    match dictGet rest k with
    | some r => some r
    | Option.none => if k' = k then some v else Option.none

/-- `d.get(k, default)`. -/
def dictGetD (entries : List (String × PyVal)) (k : String) (default : PyVal) :
    PyVal :=
  (dictGet entries k).getD default

/-- Approximate model of Python's `str(v)` for the `str(data.get("response",
""))` branch of `_rank_with_ollama`.  Only the `str` case matters to any
claim; compound values are rendered by `reprStr`-like placeholders. -/
def pyStr : PyVal → String
  | .str s => s
  | .int n => toString n
  | .float q => toString q
  | .bool true => "True"
  | .bool false => "False"
  | .none => "None"
  | .list _ => "[...]"
  | .dict _ => "\x7b...\x7d"

/-- The behaviour of everything the matcher calls but that is not code of
this repository: `json.loads`, `float(str)`, sklearn's TF-IDF/cosine stage,
`import openai` plus the chat-completion round trip, and the Ollama HTTP
round trip.  Theorems quantify over every oracle behaviour. -/
structure PyEnv where
  /-- `json.loads`; `Option.none` models a raised `json.JSONDecodeError`. -/
  jsonLoads : String → Option PyVal
  /-- `float(s)` on a string; `Option.none` models a raised `ValueError`. -/
  strFloat : String → Option ℚ
  /-- Result of matcher.py lines 48–51 (sentence building, `TfidfVectorizer`
  fit/transform, `cosine_similarity`): the flattened score row, or the
  exception the `except Exception` on line 52 catches. -/
  tfidfScores : Except PyErr (List ℚ)
  /-- `import openai` succeeds. -/
  openaiImport : Bool
  /-- Result of matcher.py lines 141–152 (`ChatCompletion.create` and content
  extraction): the response content, or the exception the `except Exception`
  on line 153 catches. -/
  openaiContent : Except PyErr String
  /-- Result of matcher.py lines 179–182 (`httpx` POST, `raise_for_status`,
  `.json()`): the decoded payload, or the exception the `except Exception`
  on line 183 catches. -/
  ollamaResp : Except PyErr PyVal

/-- Python `float(x)` on a decoded JSON value (`_build_matches_from_rankings`
line 247).  The `OverflowError` that a huge-magnitude `int` would raise has
no counterpart because `ℚ` is unbounded. -/
def pyFloat (env : PyEnv) : PyVal → Except PyErr ℚ
  | .int n => .ok (n : ℚ)
  | .float q => .ok q
  | .bool b => .ok (if b then 1 else 0)
  | .str s =>
    match env.strFloat s with
    | some q => .ok q
    | Option.none => .error .valueError
  | .none => .error .typeError
  | .list _ => .error .typeError
  | .dict _ => .error .typeError

/-- Equality test between a decoded JSON value used as a lookup key and an
integer dict key, following Python `==`/`hash` semantics on numbers
(`1 == 1.0 == True`). -/
def pyEqKey : PyVal → ℤ → Bool
  | .int m, n => m = n
  | .float q, n => q = (n : ℚ)
  | .bool b, n => (if b then (1 : ℤ) else 0) = n
  | _, _ => false

/-- `lookup.get(key)` where `lookup = {c.id: c for c in values if c.id is not
None}` (matcher.py lines 233–237, 243): a later duplicate id overrides an
earlier one, hence `getLast?`. -/
def lookupCanonical (values : List CanonicalValue) (key : Option PyVal) :
    Option CanonicalValue :=
  match key with
  | Option.none => Option.none
  | some v =>
    (values.filter (fun c =>
      match c.id with
      | some n => pyEqKey v n
      | Option.none => false)).getLast?

/-- `s.split(c, 1)` on a character list: the part before the first `c`, and
(optionally) everything after it. -/
def splitOnce (c : Char) : List Char → List Char × Option (List Char)
  | [] => ([], Option.none)
  | x :: xs =>
    if x = c then ([], some xs)
    else
      let r := splitOnce c xs
      (x :: r.1, r.2)

/-- `text.find(c)`: index of the first occurrence, `none` for Python's `-1`. -/
def firstIdx (s : String) (c : Char) : Option ℕ := s.data.findIdx? (· = c)

/-- `text.rfind(c)`: index of the last occurrence, `none` for Python's `-1`. -/
def lastIdx (s : String) (c : Char) : Option ℕ :=
  (s.data.reverse.findIdx? (· = c)).map (fun i => s.data.length - 1 - i)

/-- `text[a:b]` for `0 ≤ a ≤ b`. -/
def pySlice (s : String) (a b : ℕ) : String := ⟨(s.data.drop a).take (b - a)⟩

/-- `SemanticMatcher._parse_llm_json` (matcher.py lines 265–302) on a string.
`env.jsonLoads` stands for `json.loads`. -/
def parseLlmJson (env : PyEnv) (content : String) : List PyVal :=
  -- text = (content or "").strip(); if not text: return []
  let text := pyStrip content
  if text = "" then []
  else
    -- if text.startswith("```"): strip backticks, drop the first line
    let text :=
      if text.startsWith "```" then
        let stripped := stripChars (· = '`') text
        let parts := splitOnce '\n' stripped.data
        pyStrip (match parts.2 with
                 | some rest => ⟨rest⟩
                 | Option.none => ⟨parts.1⟩)
      else text
    -- try json.loads(text); on failure try the [ … ] substring
    let data? : Option PyVal :=
      match env.jsonLoads text with
      | some d => some d
      | Option.none =>
        match firstIdx text '[', lastIdx text ']' with
        | some s, some e =>
          if e ≤ s then Option.none
          else env.jsonLoads (pySlice text s (e + 1))
        | _, _ => Option.none
    match data? with
    | Option.none => []
    | some data =>
      -- if isinstance(data, dict): accept only a list-valued "results" key
      let data? : Option PyVal :=
        match data with
        | .dict entries =>
          match dictGet entries "results" with
          | some (.list xs) => some (.list xs)
          | _ => Option.none
        | d => some d
      match data? with
      | some (.list xs) => xs.filter PyVal.isDict  -- keep only dict entries
      | some _ => []                               -- not a list
      | Option.none => []                          -- dict without results list

/-- `_parse_llm_json` as invoked with the *unchecked* content value taken
from an Ollama payload.  On a truthy non-string the very first expression
`(content or "").strip()` raises `AttributeError` (e.g. `int` has no
`.strip`), which no enclosing handler catches; a falsy non-string is
replaced by `""` by the `or` and yields `[]`. -/
def parseLlmJsonVal (env : PyEnv) (content : PyVal) :
    Except PyErr (List PyVal) :=
  match content with
  | .str s => .ok (parseLlmJson env s)
  | v => if v.truthy then .error .attributeError else .ok []

/-- `SemanticMatcher._build_matches_from_rankings`
(matcher.py lines 229–263). -/
def buildMatchesFromRankings (env : PyEnv) (cfg : SystemConfig)
    (values : List CanonicalValue) (rankings : List PyVal) :
    List MatchCandidate :=
  if rankings.isEmpty then []
  else
    let results := rankings.filterMap (fun item =>
      match item with
      | .dict entries =>
        match lookupCanonical values (dictGet entries "id") with
        | Option.none => Option.none  -- unknown / absent id: skipped
        | some canonical =>
          match pyFloat env (dictGetD entries "score" (.int 0)) with
          | .error _ => Option.none   -- except (TypeError, ValueError)
          | .ok score => some (matchOf canonical (round4 (clamp01 score)))
      | _ => Option.none)             -- not isinstance(item, dict)
    (sortDesc results).take (topK cfg).toNat

/-- One entry of the candidate-options list sent to the LLM. -/
structure LlmOption where
  id : ℤ
  label : String
  dimension : String
  description : String
deriving DecidableEq, Repr

/-- `SemanticMatcher._build_llm_options` (matcher.py lines 214–227):
candidates without an id are omitted. -/
def buildLlmOptions (values : List CanonicalValue) : List LlmOption :=
  values.filterMap (fun canonical =>
    match canonical.id with
    | Option.none => Option.none
    | some i => some ⟨i, canonical.canonical_label, canonical.dimension,
                      canonical.description.getD ""⟩)

/-- Matcher.py lines 91–93: `overlap = len(raw & canonical)`,
`union = len(raw | canonical)`, `score = overlap/union if union else 0.0`. -/
def jaccardScore (A B : Finset String) : ℚ :=
  if (A ∪ B).card ≠ 0 then ((A ∩ B).card : ℚ) / ((A ∪ B).card : ℚ) else 0

/-- The per-candidate scoring pass of `SemanticMatcher._rank_with_lexical`
(matcher.py lines 86–104); the `continue` on an empty candidate token set is
a `filterMap` dropping the entry, and the exact-match reassignment of
`score` (lines 94–95) is collapsed into a single conditional. -/
def lexCandidates (values : List CanonicalValue) (raw_text : String) :
    List MatchCandidate :=
  values.filterMap (fun canonical =>
    if tokenize (canonicalAsSentence canonical) = ∅ then Option.none
    else some (matchOf canonical (round4
      (if pyCasefold (pyStrip canonical.canonical_label) =
          pyCasefold (pyStrip raw_text)
       then 1
       else jaccardScore (tokenize raw_text)
              (tokenize (canonicalAsSentence canonical))))))

/-- `SemanticMatcher._rank_with_lexical` (matcher.py lines 77–108). -/
def rankWithLexical (cfg : SystemConfig) (values : List CanonicalValue)
    (raw_text : String) : List MatchCandidate :=
  if tokenize raw_text = ∅ then []
  else (sortDesc (lexCandidates values raw_text)).take (topK cfg).toNat

/-- The match-building loop of `SemanticMatcher._rank_with_embeddings`
(matcher.py lines 58–71), over the scores delivered by the TF-IDF stage. -/
def embMatches (values : List CanonicalValue) (raw_text : String)
    (scores : List ℚ) : List MatchCandidate :=
  (values.zip scores).map (fun p =>
    matchOf p.1 (round4
      (if pyCasefold (pyStrip p.1.canonical_label) =
          pyCasefold (pyStrip raw_text)
       then 1
       else clamp01 p.2)))

/-- `SemanticMatcher._rank_with_embeddings` (matcher.py lines 39–75).
A failure of the TF-IDF stage (`except Exception`, line 52) redirects to the
lexical scorer. -/
def rankWithEmbeddings (env : PyEnv) (cfg : SystemConfig)
    (values : List CanonicalValue) (raw_text : String) :
    List MatchCandidate :=
  if values.isEmpty then []
  else
    match env.tfidfScores with
    | .error _ => rankWithLexical cfg values raw_text
    | .ok scores =>
      (sortDesc (embMatches values raw_text scores)).take (topK cfg).toNat

/-- `SemanticMatcher._rank_with_openai` (matcher.py lines 121–158).  The
prompt string does not influence the modelled response oracle and is not
reproduced. -/
def rankWithOpenai (env : PyEnv) (cfg : SystemConfig)
    (values : List CanonicalValue) : Except PyErr (List MatchCandidate) :=
  -- if not self.config.llm_api_key or not self.config.llm_model: return []
  if ¬ truthyOptStr cfg.llm_api_key ∨ ¬ truthyOptStr cfg.llm_model then .ok []
  else if ¬ env.openaiImport then .ok []  -- except ImportError: return []
  else
    match env.openaiContent with
    | .error _ => .ok []                  -- except Exception: return []
    | .ok content =>
      .ok (buildMatchesFromRankings env cfg values (parseLlmJson env content))

/-- The content-extraction block of `_rank_with_ollama` (matcher.py lines
187–192): `content = ""`, then the nested-`message` or flat-`response`
branch when the payload is a dict. -/
def ollamaContentOf (data : PyVal) : PyVal :=
  match data with
  | .dict entries =>
    match dictGet entries "message" with
    | some (.dict m) => dictGetD m "content" (.str "")
    | _ =>
      if (dictGet entries "response").isSome then
        .str (pyStr (dictGetD entries "response" (.str "")))
      else .str ""
  | _ => .str ""

/-- `SemanticMatcher._rank_with_ollama` (matcher.py lines 160–199).  The
request payload does not influence the modelled response oracle and is not
reproduced. -/
def rankWithOllama (env : PyEnv) (cfg : SystemConfig)
    (values : List CanonicalValue) : Except PyErr (List MatchCandidate) :=
  match env.ollamaResp with
  | .error _ => .ok []                    -- except Exception: return []
  | .ok data =>
    if ¬ (ollamaContentOf data).truthy then .ok []  -- if not content
    else
      match parseLlmJsonVal env (ollamaContentOf data) with
      | .error e => .error e              -- uncaught exception propagates
      | .ok rankings =>
        .ok (buildMatchesFromRankings env cfg values rankings)

/-- `SemanticMatcher._rank_with_llm` (matcher.py lines 110–119). -/
def rankWithLlm (env : PyEnv) (cfg : SystemConfig)
    (values : List CanonicalValue) : Except PyErr (List MatchCandidate) :=
  if values.isEmpty then .ok []
  else if pyLower (pyOrStr cfg.llm_mode "online") = "offline" then
    rankWithOllama env cfg values
  else rankWithOpenai env cfg values

/-- `SemanticMatcher.rank` (matcher.py lines 26–37). -/
def rank (env : PyEnv) (cfg : SystemConfig) (values : List CanonicalValue)
    (raw_text : String) : Except PyErr (List MatchCandidate) :=
  if pyStrip raw_text = "" then .ok []
  else if cfg.matcher_backend = "llm" then
    match rankWithLlm env cfg values with
    | .error e => .error e                -- uncaught exception propagates
    | .ok llm_rankings =>
      if ¬ llm_rankings.isEmpty then .ok llm_rankings
      else .ok (rankWithEmbeddings env cfg values raw_text)
  else .ok (rankWithEmbeddings env cfg values raw_text)

/-- The standalone lexical similarity of two strings, as computed by
matcher.py lines 80, 88 and 91–93 on the query and a candidate sentence. -/
def lexScore (a b : String) : ℚ := jaccardScore (tokenize a) (tokenize b)

/-! ### Spec-side formulation of the LLM response parser (§4.4 of the spec:
"strip fences → direct parse → bracket-substring parse → key-extraction",
each stage with an explicit success/failure result). -/

/-- Spec stage 1: "if the content is wrapped in a code fence, strip the
fence markers and take the content after the fence's first line". -/
def fenceStage (t : String) : String :=
  if t.startsWith "```" then
    pyStrip (match (splitOnce '\n' (stripChars (· = '`') t).data).2 with
             | some rest => ⟨rest⟩
             | Option.none => ⟨(splitOnce '\n' (stripChars (· = '`') t).data).1⟩)
  else t

/-- Spec stage 2: "attempt direct JSON parse". -/
def directParseStage (env : PyEnv) (t : String) : Option PyVal :=
  env.jsonLoads t

/-- Spec stage 3: "on failure, locate the first `[` and last `]` and attempt
to parse that substring as JSON". -/
def bracketStage (env : PyEnv) (t : String) : Option PyVal :=
  match firstIdx t '[', lastIdx t ']' with
  | some s, some e => if s < e then env.jsonLoads (pySlice t s (e + 1))
                      else Option.none
  | _, _ => Option.none

/-- Spec stage 4: "if the parsed value is an object rather than a list, look
for a `results` key containing a list; otherwise treat as unparsable". -/
def resultsStage : PyVal → Option (List PyVal)
  | .list xs => some xs
  | .dict es =>
    match dictGet es "results" with
    | some (.list xs) => some xs
    | _ => Option.none
  | _ => Option.none

/-- The spec's parsing pipeline: fence strip, then direct parse orelse
bracket-substring parse, then key extraction, then "any non-object entries
are discarded.  Any parse failure at any stage yields an empty list." -/
def parseLlmJsonSpec (env : PyEnv) (content : String) : List PyVal :=
  match directParseStage env (fenceStage (pyStrip content)) <|>
        bracketStage env (fenceStage (pyStrip content)) with
  | Option.none => []
  | some v =>
    match resultsStage v with
    | some xs => xs.filter PyVal.isDict
    | Option.none => []

/-! ### Concrete instances used by witnesses and counterexamples -/

/-- The environment in which every external call fails: `json.loads` and
`float(str)` always raise, TF-IDF vectorization raises (degenerate
vocabulary), `openai` cannot be imported, and both transports fail. -/
def envFail : PyEnv :=
  { jsonLoads := fun _ => Option.none
    strFloat := fun _ => Option.none
    tfidfScores := .error .valueError
    openaiImport := false
    openaiContent := .error .transportError
    ollamaResp := .error .transportError }

/-- Embedding backend, default `top_k = 5`. -/
def cfgEmb : SystemConfig :=
  { matcher_backend := "embedding", llm_mode := Option.none
    llm_model := Option.none, llm_api_base := Option.none
    llm_api_key := Option.none, top_k := 5 }

/-- Embedding backend with the falsy `top_k = 0`. -/
def cfgTop0 : SystemConfig := { cfgEmb with top_k := 0 }

/-- LLM backend in online (default) mode with no API key configured. -/
def cfgLlmNoKey : SystemConfig :=
  { matcher_backend := "llm", llm_mode := Option.none
    llm_model := some "gpt-3.5-turbo", llm_api_base := Option.none
    llm_api_key := Option.none, top_k := 5 }

/-- LLM backend in offline (Ollama) mode. -/
def cfgOffline : SystemConfig :=
  { matcher_backend := "llm", llm_mode := some "offline"
    llm_model := some "llama3", llm_api_base := Option.none
    llm_api_key := Option.none, top_k := 2 }

/-- Two canonical values with distinct labels. -/
def valsAB : List CanonicalValue :=
  [⟨some 1, "d", "alpha", Option.none⟩, ⟨some 2, "d", "beta", Option.none⟩]

/-- Two canonical values whose labels both case-fold to the query
`"alpha"`. -/
def valsAlpha : List CanonicalValue :=
  [⟨some 1, "d", "alpha", Option.none⟩, ⟨some 2, "d", "Alpha", Option.none⟩]

/-- A non-exact candidate listed before an exact match for `"hello"`. -/
def valsTie : List CanonicalValue :=
  [⟨some 1, "d", "other", Option.none⟩, ⟨some 2, "d", "Hello", Option.none⟩]

/-- A single candidate whose label tokenizes to the empty set. -/
def valsHyphen : List CanonicalValue := [⟨some 1, "d", "-", Option.none⟩]

/-- A single candidate without an identifier. -/
def valsNoId : List CanonicalValue :=
  [⟨Option.none, "marital", "married", Option.none⟩]

/-- A single candidate with an identifier. -/
def valsMarried : List CanonicalValue :=
  [⟨some 1, "d", "Married", Option.none⟩]

/-- `envFail` with a successful TF-IDF stage returning all-zero scores. -/
def envScores00 : PyEnv := { envFail with tfidfScores := .ok [0, 0] }

/-- `envFail` with a successful TF-IDF stage: an overshooting similarity for
the first candidate and zero for the second. -/
def envScores20 : PyEnv := { envFail with tfidfScores := .ok [2, 0] }

/-- `envFail` with a successful TF-IDF stage for a single candidate. -/
def envScore0 : PyEnv := { envFail with tfidfScores := .ok [0] }

/-- `envFail` with an Ollama payload whose `message.content` is a truthy
non-string. -/
def envOllamaInt : PyEnv :=
  { envFail with
    ollamaResp := .ok (.dict [("message", .dict [("content", .int 123)])]) }

/-! ## Helper lemmas -/

/-- A score as emitted by any of the three paths: clamped into `[0,1]` and a
multiple of `1/10000` (4 decimal places). -/
def goodScore (m : MatchCandidate) : Prop :=
  0 ≤ m.score ∧ m.score ≤ 1 ∧ ∃ n : ℤ, m.score = (n : ℚ) / 10000

/-- A returned list: scores good, and sorted by score descending. -/
def goodList (l : List MatchCandidate) : Prop :=
  (∀ m ∈ l, goodScore m) ∧ l.Sorted scoreGE

theorem round_rat_mono {a b : ℚ} (h : a ≤ b) : round a ≤ round b := by
  rw [round_eq, round_eq]
  exact Int.floor_mono (by linarith)

theorem round4_nonneg {x : ℚ} (h : 0 ≤ x) : 0 ≤ round4 x := by
  have h0 : (0 : ℤ) ≤ round (x * 10000) := by
    rw [← round_zero (α := ℚ)]
    exact round_rat_mono (by nlinarith)
  unfold round4
  have hc : (0 : ℚ) ≤ ((round (x * 10000) : ℤ) : ℚ) := by exact_mod_cast h0
  exact div_nonneg hc (by norm_num)

theorem round4_le_one {x : ℚ} (h : x ≤ 1) : round4 x ≤ 1 := by
  have h1 : round (x * 10000) ≤ (10000 : ℤ) := by
    have h2 := round_rat_mono (show x * 10000 ≤ ((10000 : ℤ) : ℚ) by
      push_cast; nlinarith)
    rwa [round_intCast] at h2
  unfold round4
  rw [div_le_one (by norm_num)]
  exact_mod_cast h1

theorem clamp01_nonneg (x : ℚ) : 0 ≤ clamp01 x := le_max_left 0 _

theorem clamp01_le_one (x : ℚ) : clamp01 x ≤ 1 :=
  max_le (by norm_num) (min_le_left 1 x)

/-- The final score `round4 s` of any path, with `s ∈ [0,1]`, is good. -/
theorem goodScore_round4 {c : CanonicalValue} {s : ℚ} (h0 : 0 ≤ s)
    (h1 : s ≤ 1) : goodScore (matchOf c (round4 s)) :=
  ⟨round4_nonneg h0, round4_le_one h1, round (s * 10000), rfl⟩

theorem mem_sortDesc {l : List MatchCandidate} {m : MatchCandidate} :
    m ∈ sortDesc l ↔ m ∈ l :=
  List.mem_insertionSort scoreGE

theorem sortDesc_sorted (l : List MatchCandidate) :
    (sortDesc l).Sorted scoreGE :=
  List.sorted_insertionSort scoreGE l

theorem length_sortDesc (l : List MatchCandidate) :
    (sortDesc l).length = l.length :=
  List.length_insertionSort scoreGE l

/-- The common `sort descending, truncate to top-k` postlude keeps scores
good and produces a descending list. -/
theorem goodList_sortTake {l : List MatchCandidate}
    (h : ∀ m ∈ l, goodScore m) (k : ℕ) : goodList ((sortDesc l).take k) := by
  constructor
  · intro m hm
    exact h m (mem_sortDesc.1 (List.mem_of_mem_take hm))
  · exact List.Pairwise.sublist (List.take_sublist k (sortDesc l))
      (sortDesc_sorted l)

theorem goodList_nil : goodList [] :=
  ⟨fun m hm => absurd hm (List.not_mem_nil m), List.sorted_nil⟩

/-- Truncation bound of the postlude. -/
theorem length_sortTake_le (l : List MatchCandidate) (k : ℕ) :
    ((sortDesc l).take k).length ≤ k := by
  simp [List.length_take]

/-- In a list sorted by descending score, an element strictly above every
other element is the head. -/
theorem head?_eq_of_unique_max {l : List MatchCandidate}
    {c : MatchCandidate} (hsort : l.Sorted scoreGE) (hmem : c ∈ l)
    (hmax : ∀ x ∈ l, x ≠ c → x.score < c.score) : l.head? = some c := by
  cases l with
  | nil => cases hmem
  | cons a t =>
    by_cases hac : a = c
    · simp [hac]
    · exfalso
      have hct : c ∈ t := by
        rcases List.mem_cons.1 hmem with h | h
        · exact absurd h.symm hac
        · exact h
      have h1 : c.score ≤ a.score :=
        (List.pairwise_cons.1 hsort).1 c hct
      have h2 : a.score < c.score :=
        hmax a (List.mem_cons_self a t) hac
      exact absurd h1 (not_le.2 h2)

theorem head?_take {α : Type} {l : List α} {n : ℕ} (h : n ≠ 0) :
    (l.take n).head? = l.head? := by
  cases l with
  | nil => simp
  | cons a t =>
    cases n with
    | zero => exact absurd rfl h
    | succ n => simp

/-- `topK` is always at least 1 (the `max(1, …)` clamp). -/
theorem one_le_topK (cfg : SystemConfig) : 1 ≤ topK cfg := le_max_left 1 _

theorem topK_toNat_ne_zero (cfg : SystemConfig) : (topK cfg).toNat ≠ 0 := by
  have h := one_le_topK cfg
  omega

/-- The Jaccard quotient of the lexical scorer lies in `[0,1]`. -/
theorem jaccard_bounds (A B : Finset String) :
    0 ≤ jaccardScore A B ∧ jaccardScore A B ≤ 1 := by
  rw [jaccardScore]
  split
  · next hu =>
    constructor
    · exact div_nonneg (by positivity) (by positivity)
    · rw [div_le_one (by exact_mod_cast Nat.pos_of_ne_zero hu)]
      exact_mod_cast Finset.card_le_card (Finset.inter_subset_union)
  · exact ⟨le_refl 0, by norm_num⟩

/-- Every entry the lexical scoring pass emits carries a good score. -/
theorem goodScore_of_mem_lexCandidates {values : List CanonicalValue}
    {raw_text : String} {m : MatchCandidate}
    (h : m ∈ lexCandidates values raw_text) : goodScore m := by
  rw [lexCandidates, List.mem_filterMap] at h
  obtain ⟨c, _, hc⟩ := h
  split at hc
  · exact absurd hc (by simp)
  · rw [Option.some_inj] at hc
    subst hc
    split
    · exact goodScore_round4 (by norm_num) (le_refl 1)
    · exact goodScore_round4 (jaccard_bounds _ _).1 (jaccard_bounds _ _).2

/-- The exact-match override forces the final score of the affected entry to
exactly `1`. -/
theorem round4_one : round4 1 = 1 := by norm_num [round4]

theorem round4_zero : round4 0 = 0 := by norm_num [round4]

/-- Every entry the embedding scoring pass emits carries a good score. -/
theorem goodScore_of_mem_embMatches {values : List CanonicalValue}
    {raw_text : String} {scores : List ℚ} {m : MatchCandidate}
    (h : m ∈ embMatches values raw_text scores) : goodScore m := by
  rw [embMatches, List.mem_map] at h
  obtain ⟨p, _, hp⟩ := h
  subst hp
  split
  · exact goodScore_round4 (by norm_num) (le_refl 1)
  · exact goodScore_round4 (clamp01_nonneg _) (clamp01_le_one _)

/-- `_build_matches_from_rankings` returns a good list, truncated to
`topK`. -/
theorem buildMatchesFromRankings_good (env : PyEnv) (cfg : SystemConfig)
    (values : List CanonicalValue) (rankings : List PyVal) :
    goodList (buildMatchesFromRankings env cfg values rankings) ∧
    (buildMatchesFromRankings env cfg values rankings).length ≤
      (topK cfg).toNat := by
  rw [buildMatchesFromRankings]
  split
  · exact ⟨goodList_nil, by simp⟩
  · refine ⟨goodList_sortTake ?_ _, length_sortTake_le _ _⟩
    intro m hm
    rw [List.mem_filterMap] at hm
    obtain ⟨item, _, hitem⟩ := hm
    split at hitem
    · split at hitem
      · exact absurd hitem (by simp)
      · split at hitem
        · exact absurd hitem (by simp)
        · rw [Option.some_inj] at hitem
          subst hitem
          exact goodScore_round4 (clamp01_nonneg _) (clamp01_le_one _)
    · exact absurd hitem (by simp)

/-- `_rank_with_lexical` returns a good list, truncated to `topK`. -/
theorem rankWithLexical_good (cfg : SystemConfig)
    (values : List CanonicalValue) (raw_text : String) :
    goodList (rankWithLexical cfg values raw_text) ∧
    (rankWithLexical cfg values raw_text).length ≤ (topK cfg).toNat := by
  rw [rankWithLexical]
  split
  · exact ⟨goodList_nil, by simp⟩
  · exact ⟨goodList_sortTake (fun m hm => goodScore_of_mem_lexCandidates hm) _,
      length_sortTake_le _ _⟩

/-- `_rank_with_embeddings` returns a good list, truncated to `topK`. -/
theorem rankWithEmbeddings_good (env : PyEnv) (cfg : SystemConfig)
    (values : List CanonicalValue) (raw_text : String) :
    goodList (rankWithEmbeddings env cfg values raw_text) ∧
    (rankWithEmbeddings env cfg values raw_text).length ≤
      (topK cfg).toNat := by
  rw [rankWithEmbeddings]
  split
  · exact ⟨goodList_nil, by simp⟩
  · split
    · exact rankWithLexical_good cfg values raw_text
    · exact ⟨goodList_sortTake
        (fun m hm => goodScore_of_mem_embMatches hm) _,
        length_sortTake_le _ _⟩

/-- `_rank_with_llm`, when it returns a value, returns a good list truncated
to `topK`. -/
theorem rankWithLlm_good {env : PyEnv} {cfg : SystemConfig}
    {values : List CanonicalValue} {l : List MatchCandidate}
    (h : rankWithLlm env cfg values = .ok l) :
    goodList l ∧ l.length ≤ (topK cfg).toNat := by
  rw [rankWithLlm] at h
  split at h
  · cases h
    exact ⟨goodList_nil, by simp⟩
  · split at h
    · -- offline: ollama
      rw [rankWithOllama] at h
      split at h
      · cases h
        exact ⟨goodList_nil, by simp⟩
      · split at h
        · cases h
          exact ⟨goodList_nil, by simp⟩
        · split at h
          · cases h
          · cases h
            exact buildMatchesFromRankings_good env cfg values _
    · -- online: openai
      rw [rankWithOpenai] at h
      split at h
      · cases h
        exact ⟨goodList_nil, by simp⟩
      · split at h
        · cases h
          exact ⟨goodList_nil, by simp⟩
        · split at h
          · cases h
            exact ⟨goodList_nil, by simp⟩
          · cases h
            exact buildMatchesFromRankings_good env cfg values _

/-- Lower-casing fixes whitespace and the hyphen. -/
theorem pyLowerChar_eq_self_of_ws_or_hyphen {c : Char}
    (h : pyWS c = true ∨ c = '-') : pyLowerChar c = c := by
  rcases h with h | rfl
  · simp only [pyWS, Bool.or_eq_true, decide_eq_true_eq] at h
    rcases h with ((((rfl | rfl) | rfl) | rfl) | rfl) | rfl <;> decide
  · decide

/-- Lower-casing a character that is neither whitespace nor a hyphen yields
a character that is neither whitespace nor a hyphen. -/
theorem pyLowerChar_not_ws_hyphen {c : Char} (h1 : pyWS c = false)
    (h2 : c ≠ '-') : pyWS (pyLowerChar c) = false ∧ pyLowerChar c ≠ '-' := by
  rw [pyLowerChar]
  split
  · next hr =>
    obtain ⟨ha, hb⟩ := hr
    generalize hn : c.toNat = n at ha hb
    interval_cases n <;> decide
  · exact ⟨h1, h2⟩

/-- `splitWSAux` returns no token iff the accumulator is empty and every
remaining character is whitespace. -/
theorem splitWSAux_eq_nil_iff (l : List Char) (acc : List Char) :
    splitWSAux l acc = [] ↔ (acc = [] ∧ ∀ c ∈ l, pyWS c = true) := by
  induction l generalizing acc with
  | nil =>
    rw [splitWSAux]
    split
    · next h =>
      simp only [List.isEmpty_iff] at h
      simp [h]
    · next h =>
      simp only [List.isEmpty_iff] at h
      simp [h]
  | cons c rest ih =>
    rw [splitWSAux]
    split
    · next hws =>
      split
      · next hacc =>
        simp only [List.isEmpty_iff] at hacc
        rw [ih]
        simp [hacc, hws]
      · next hacc =>
        simp only [List.isEmpty_iff] at hacc
        simp [hacc]
    · next hws =>
      rw [ih]
      have : pyWS c = false := by
        cases h : pyWS c
        · rfl
        · exact absurd h hws
      simp [this]

/-- The token set of a string is empty iff the string consists of whitespace
and hyphens only. -/
theorem tokenize_eq_empty_iff (s : String) :
    tokenize s = ∅ ↔ ∀ c ∈ s.data, pyWS c = true ∨ c = '-' := by
  rw [tokenize]
  rw [List.toFinset_eq_empty_iff, List.map_eq_nil_iff]
  show splitWSAux (s.data.map _) [] = [] ↔ _
  rw [splitWSAux_eq_nil_iff]
  simp only [true_and, List.mem_map, forall_exists_index, and_imp]
  constructor
  · intro h c hc
    have := h _ c hc rfl
    by_cases hh : c = '-'
    · exact Or.inr hh
    · rw [if_neg hh] at this
      exact Or.inl this
  · intro h x c hc hx
    subst hx
    rcases h c hc with hl | rfl
    · split
      · decide
      · exact hl
    · decide

/-- A character of a list that fails the predicate survives `dropWhile`. -/
theorem mem_dropWhile_of_mem {α : Type} {p : α → Bool} {c : α} :
    ∀ {l : List α}, c ∈ l → p c = false → c ∈ l.dropWhile p
  | x :: xs, h, hc => by
    rw [List.dropWhile]
    split
    · next hx =>
      rcases List.mem_cons.1 h with rfl | h'
      · rw [hc] at hx; cases hx
      · exact mem_dropWhile_of_mem h' hc
    · exact h

/-- A non-whitespace character survives `pyStrip`. -/
theorem mem_pyStrip_of_mem {c : Char} {s : String} (h : c ∈ s.data)
    (hc : pyWS c = false) : c ∈ (pyStrip s).data := by
  show c ∈ (((s.data.dropWhile pyWS).reverse.dropWhile pyWS).reverse)
  rw [List.mem_reverse]
  exact mem_dropWhile_of_mem
    (List.mem_reverse.2 (mem_dropWhile_of_mem h hc)) hc

/-- Every character of the stripped string occurs in the original. -/
theorem mem_of_mem_pyStrip {c : Char} {s : String}
    (h : c ∈ (pyStrip s).data) : c ∈ s.data := by
  have h1 : c ∈ ((s.data.dropWhile pyWS).reverse.dropWhile pyWS) :=
    List.mem_reverse.1 h
  have h2 : c ∈ (s.data.dropWhile pyWS).reverse :=
    (List.dropWhile_suffix pyWS).subset h1
  exact (List.dropWhile_suffix pyWS).subset (List.mem_reverse.1 h2)

/-- If the case-folded trimmed label equals the case-folded trimmed raw text
and the raw text contains a token character (neither whitespace nor hyphen),
then so does the label. -/
theorem label_has_token_char {label raw : String}
    (hex : pyCasefold (pyStrip label) = pyCasefold (pyStrip raw))
    (h : ∃ c ∈ raw.data, pyWS c = false ∧ c ≠ '-') :
    ∃ c ∈ label.data, pyWS c = false ∧ c ≠ '-' := by
  obtain ⟨c, hc, hcw, hch⟩ := h
  have h1 : c ∈ (pyStrip raw).data := mem_pyStrip_of_mem hc hcw
  have h2 : pyLowerChar c ∈ (pyCasefold (pyStrip raw)).data :=
    List.mem_map_of_mem pyLowerChar h1
  rw [← hex] at h2
  have h3 : ∃ e ∈ (pyStrip label).data, pyLowerChar e = pyLowerChar c :=
    List.mem_map.1 h2
  obtain ⟨e, he, hee⟩ := h3
  have hP : pyWS (pyLowerChar c) = false ∧ pyLowerChar c ≠ '-' :=
    pyLowerChar_not_ws_hyphen hcw hch
  have hPe : pyWS e = false ∧ e ≠ '-' := by
    by_cases hws : pyWS e = true ∨ e = '-'
    · exfalso
      have : pyLowerChar e = e := pyLowerChar_eq_self_of_ws_or_hyphen hws
      rw [this] at hee
      subst hee
      rcases hws with hw | hh
      · rw [hP.1] at hw; cases hw
      · exact hP.2 hh
    · push_neg at hws
      exact ⟨by simpa using hws.1, hws.2⟩
  exact ⟨e, mem_of_mem_pyStrip he, hPe⟩

/-- An exact-match candidate for a tokenizable raw text has a tokenizable
sentence (so the lexical scorer does not skip it). -/
theorem tokenize_sentence_ne_empty_of_exact {c : CanonicalValue}
    {raw : String} (hraw : tokenize raw ≠ ∅)
    (hex : pyCasefold (pyStrip c.canonical_label) =
           pyCasefold (pyStrip raw)) :
    tokenize (canonicalAsSentence c) ≠ ∅ := by
  have hraw' : ∃ ch ∈ raw.data, pyWS ch = false ∧ ch ≠ '-' := by
    by_contra hcon
    push_neg at hcon
    apply hraw
    rw [tokenize_eq_empty_iff]
    intro ch hch
    by_cases hh : ch = '-'
    · exact Or.inr hh
    · rcases hcon ch hch with h
      by_cases hw : pyWS ch = true
      · exact Or.inl hw
      · exact absurd (h (by simpa using hw)) hh
  obtain ⟨e, he, heP⟩ := label_has_token_char hex hraw'
  intro hcon
  rw [tokenize_eq_empty_iff] at hcon
  have hmem : e ∈ (canonicalAsSentence c).data := by
    rw [canonicalAsSentence]
    split
    · split
      · exact he
      · show e ∈ (c.canonical_label ++ ". " ++ _).data
        rw [String.data_append, String.data_append]
        exact List.mem_append_left _ (List.mem_append_left _ he)
    · exact he
  rcases hcon e hmem with hw | hh
  · rw [heP.1] at hw; cases hw
  · exact heP.2 hh

/-- `rank`, when it returns a value, returns a good list truncated to
`topK`. -/
theorem rank_good {env : PyEnv} {cfg : SystemConfig}
    {values : List CanonicalValue} {raw_text : String}
    {l : List MatchCandidate}
    (h : rank env cfg values raw_text = .ok l) :
    goodList l ∧ l.length ≤ (topK cfg).toNat := by
  rw [rank] at h
  split at h
  · cases h
    exact ⟨goodList_nil, by simp⟩
  · split at h
    · -- llm backend
      split at h
      · cases h
      · next llm hllm =>
        split at h
        · cases h
          exact rankWithLlm_good hllm
        · cases h
          exact rankWithEmbeddings_good env cfg values raw_text
    · cases h
      exact rankWithEmbeddings_good env cfg values raw_text

theorem sortDesc_single (a : MatchCandidate) : sortDesc [a] = [a] := rfl

/-- A two-element list already in descending order is left unchanged
(stability on ties included, since `scoreGE` holds for equal scores). -/
theorem sortDesc_pair {a b : MatchCandidate} (h : scoreGE a b) :
    sortDesc [a, b] = [a, b] := by
  show List.orderedInsert scoreGE a (List.orderedInsert scoreGE b []) = [a, b]
  rw [List.orderedInsert, List.orderedInsert, if_pos h]

/-- The head of the sorted-and-truncated output is the element strictly
dominating all others. -/
theorem head?_sortTake_of_unique_max {l : List MatchCandidate}
    {c : MatchCandidate} {k : ℕ} (hk : k ≠ 0) (hc : c ∈ l)
    (hmax : ∀ x ∈ l, x ≠ c → x.score < c.score) :
    ((sortDesc l).take k).head? = some c := by
  rw [head?_take hk]
  exact head?_eq_of_unique_max (sortDesc_sorted l) (mem_sortDesc.2 hc)
    (fun x hx hne => hmax x (mem_sortDesc.1 hx) hne)

/-- The `i`-th entry of the embedding scoring pass, when the TF-IDF stage
returns one score per candidate. -/
theorem embMatches_getElem? (values : List CanonicalValue)
    (raw_text : String) (scores : List ℚ) (i : ℕ) (hi : i < values.length)
    (hlen : scores.length = values.length) :
    (embMatches values raw_text scores)[i]? =
      some (matchOf (values.get ⟨i, hi⟩) (round4
        (if pyCasefold (pyStrip (values.get ⟨i, hi⟩).canonical_label) =
            pyCasefold (pyStrip raw_text)
         then 1
         else clamp01 (scores.get ⟨i, by rw [hlen]; exact hi⟩)))) := by
  have hz : i < (values.zip scores).length := by
    rw [List.length_zip, hlen]
    simp [hi]
  have hm : i < (embMatches values raw_text scores).length := by
    rw [embMatches, List.length_map]
    exact hz
  rw [List.getElem?_eq_getElem hm]
  congr 1
  show (List.map _ (values.zip scores))[i] = _
  rw [List.getElem_map, List.getElem_zip]
  simp [List.get_eq_getElem]

/-- The length bound of `rank` restated over `ℤ` against the effective
top-k. -/
theorem rank_length_le_topK {env : PyEnv} {cfg : SystemConfig}
    {values : List CanonicalValue} {raw_text : String}
    {l : List MatchCandidate}
    (h : rank env cfg values raw_text = .ok l) :
    (l.length : ℤ) ≤ topK cfg := by
  have h1 := (rank_good h).2
  have h2 := one_le_topK cfg
  omega

/-! ## Claim theorems -/

/-- Claim C1, counterexample: with `top_k = 0` (explicitly included in the
claim) and two candidates both matching the query exactly, `rank` returns a
list of length 2, exceeding the claimed bound `max(1, top_k) = 1` — the code
replaces the falsy `0` by the default `5` before clamping
(`max(1, self.config.top_k or 5)`). -/
theorem rank_top_k_zero_counterexample :
    rank envScores00 cfgTop0 valsAlpha "alpha" =
      .ok [matchOf ⟨some 1, "d", "alpha", Option.none⟩ 1,
           matchOf ⟨some 2, "d", "Alpha", Option.none⟩ 1] ∧
    ¬ ((2 : ℤ) ≤ max 1 cfgTop0.top_k) := by
  constructor
  · have he : embMatches valsAlpha "alpha" [0, 0] =
        [matchOf ⟨some 1, "d", "alpha", Option.none⟩ 1,
         matchOf ⟨some 2, "d", "Alpha", Option.none⟩ 1] := by
      simp only [valsAlpha, embMatches, List.zip_cons_cons,
        List.zip_nil_right, List.map_cons, List.map_nil]
      rw [if_pos (by decide), if_pos (by decide), round4_one]
    have hs : envScores00.tfidfScores = .ok [0, 0] := rfl
    rw [rank, if_neg (by decide), if_neg (by decide), rankWithEmbeddings,
      if_neg (by decide), hs]
    show Except.ok ((sortDesc (embMatches valsAlpha "alpha" [0, 0])).take
      (topK cfgTop0).toNat) = _
    rw [he, sortDesc_pair (le_refl 1), List.take_of_length_le
      (by rw [show (topK cfgTop0).toNat = 5 from by decide]; decide)]
  · decide

/-- Claim C1 (amended): every list returned by `rank` has length at most
`max(1, top_k or 5)`; in particular the claimed bound `max(1, top_k)` holds
for every `top_k ≠ 0`, while the falsy `top_k = 0` is first replaced by the
default `5`. -/
theorem rank_length_le_max_one_top_k (env : PyEnv) (cfg : SystemConfig)
    (values : List CanonicalValue) (raw_text : String)
    (l : List MatchCandidate) (h : rank env cfg values raw_text = .ok l) :
    (l.length : ℤ) ≤ max 1 (pyOrInt cfg.top_k 5) ∧
    (cfg.top_k ≠ 0 → (l.length : ℤ) ≤ max 1 cfg.top_k) := by
  have h1 := rank_length_le_topK h
  rw [topK] at h1
  refine ⟨h1, fun h0 => ?_⟩
  rwa [pyOrInt, if_neg h0] at h1

/-- Claim C1 witness: the bound instantiated on a concrete call. -/
theorem rank_length_le_max_one_top_k_witness :
    rank envFail cfgEmb valsMarried "married" =
      .ok [matchOf ⟨some 1, "d", "Married", Option.none⟩ (round4 1)] ∧
    (([matchOf ⟨some 1, "d", "Married", Option.none⟩ (round4 1)].length : ℤ)
       ≤ max 1 (pyOrInt cfgEmb.top_k 5) ∧
     (cfgEmb.top_k ≠ 0 →
      ([matchOf ⟨some 1, "d", "Married", Option.none⟩
          (round4 1)].length : ℤ) ≤ max 1 cfgEmb.top_k)) :=
  ⟨rfl, rank_length_le_max_one_top_k envFail cfgEmb valsMarried "married" _
    rfl⟩

/-- Claim C3: every list `rank` returns — and each of the three scoring
paths (embedding, lexical, LLM) separately — carries scores in `[0, 1]`
that are multiples of `1/10000` (4 decimal places) and is sorted by
non-increasing score. -/
theorem rank_scores_clamped_rounded_sorted (env : PyEnv)
    (cfg : SystemConfig) (values : List CanonicalValue) (raw_text : String)
    (l : List MatchCandidate) (h : rank env cfg values raw_text = .ok l) :
    ((∀ m ∈ l, 0 ≤ m.score ∧ m.score ≤ 1 ∧
        ∃ n : ℤ, m.score = (n : ℚ) / 10000) ∧ l.Sorted scoreGE) ∧
    goodList (rankWithEmbeddings env cfg values raw_text) ∧
    goodList (rankWithLexical cfg values raw_text) ∧
    (∀ l', rankWithLlm env cfg values = .ok l' → goodList l') :=
  ⟨(rank_good h).1, (rankWithEmbeddings_good env cfg values raw_text).1,
   (rankWithLexical_good cfg values raw_text).1,
   fun _ h' => (rankWithLlm_good h').1⟩

/-- Claim C3 witness: the invariants instantiated on a concrete call. -/
theorem rank_scores_clamped_rounded_sorted_witness :
    rank envFail cfgEmb valsMarried "married" =
      .ok [matchOf ⟨some 1, "d", "Married", Option.none⟩ (round4 1)] ∧
    ((∀ m ∈ [matchOf ⟨some 1, "d", "Married", Option.none⟩ (round4 1)],
        0 ≤ m.score ∧ m.score ≤ 1 ∧ ∃ n : ℤ, m.score = (n : ℚ) / 10000) ∧
      [matchOf ⟨some 1, "d", "Married", Option.none⟩
        (round4 1)].Sorted scoreGE) :=
  ⟨rfl, ((rank_scores_clamped_rounded_sorted envFail cfgEmb valsMarried
    "married" _ rfl).1 : _)⟩

/-- Claim C8: `rank` returns `ok []` immediately whenever the trimmed raw
text is empty (any candidates and config) or the candidate list is empty
(any text and config). -/
theorem rank_empty_input_returns_empty (env : PyEnv) (cfg : SystemConfig)
    (values : List CanonicalValue) (raw_text : String) :
    (pyStrip raw_text = "" → rank env cfg values raw_text = .ok []) ∧
    (values = [] → rank env cfg values raw_text = .ok []) := by
  constructor
  · intro h
    rw [rank, if_pos h]
  · rintro rfl
    rw [rank]
    split
    · rfl
    · have hl : rankWithLlm env cfg [] = .ok [] := by
        rw [rankWithLlm, if_pos (by decide)]
      split
      · rw [hl]
        simp [rankWithEmbeddings]
      · simp [rankWithEmbeddings]

/-- Claim C8 witness: both degenerate inputs on concrete calls. -/
theorem rank_empty_input_returns_empty_witness :
    pyStrip "  " = "" ∧
    rank envFail cfgEmb valsAB "  " = .ok [] ∧
    rank envFail cfgEmb [] "x" = .ok [] :=
  ⟨by decide,
   (rank_empty_input_returns_empty envFail cfgEmb valsAB "  ").1 (by decide),
   (rank_empty_input_returns_empty envFail cfgEmb [] "x").2 rfl⟩

/-- Claim C2 (amended): on the embedding and lexical paths an exact-match
candidate (label and query equal after trim and casefold) receives final
score exactly `1`, and it is ranked first provided every other entry's final
score is strictly below `1` — "another exact-match tie" is not the only
obstruction: any candidate whose rounded score reaches `1.0` and precedes it
in input order also displaces it (see the counterexample). -/
theorem exact_match_scores_one_and_ranks_first (cfg : SystemConfig)
    (values : List CanonicalValue) (raw_text : String) (scores : List ℚ)
    (env : PyEnv) (i : ℕ) (hi : i < values.length)
    (hlen : scores.length = values.length)
    (hex : pyCasefold (pyStrip (values.get ⟨i, hi⟩).canonical_label) =
           pyCasefold (pyStrip raw_text)) :
    (embMatches values raw_text scores)[i]? =
      some (matchOf (values.get ⟨i, hi⟩) 1) ∧
    (env.tfidfScores = .ok scores →
      (∀ m ∈ embMatches values raw_text scores,
         m ≠ matchOf (values.get ⟨i, hi⟩) 1 → m.score < 1) →
      (rankWithEmbeddings env cfg values raw_text).head? =
        some (matchOf (values.get ⟨i, hi⟩) 1)) ∧
    (tokenize raw_text ≠ ∅ →
      matchOf (values.get ⟨i, hi⟩) 1 ∈ lexCandidates values raw_text ∧
      ((∀ m ∈ lexCandidates values raw_text,
          m ≠ matchOf (values.get ⟨i, hi⟩) 1 → m.score < 1) →
        (rankWithLexical cfg values raw_text).head? =
          some (matchOf (values.get ⟨i, hi⟩) 1))) := by
  have hA : (embMatches values raw_text scores)[i]? =
      some (matchOf (values.get ⟨i, hi⟩) 1) := by
    rw [embMatches_getElem? values raw_text scores i hi hlen,
      if_pos hex, round4_one]
  have hmemE : matchOf (values.get ⟨i, hi⟩) 1 ∈
      embMatches values raw_text scores := by
    obtain ⟨hlt, heq⟩ := List.getElem?_eq_some_iff.1 hA
    exact heq ▸ List.getElem_mem hlt
  refine ⟨hA, fun htf huniq => ?_, fun hraw => ?_⟩
  · have hne : ¬ values.isEmpty = true := by
      rw [List.isEmpty_iff]
      exact List.ne_nil_of_length_pos (by omega)
    rw [rankWithEmbeddings, if_neg hne, htf]
    exact head?_sortTake_of_unique_max (topK_toNat_ne_zero cfg) hmemE huniq
  · have hmemL : matchOf (values.get ⟨i, hi⟩) 1 ∈
        lexCandidates values raw_text := by
      rw [lexCandidates, List.mem_filterMap]
      refine ⟨values.get ⟨i, hi⟩, List.get_mem values i hi, ?_⟩
      rw [if_neg (tokenize_sentence_ne_empty_of_exact hraw hex),
        if_pos hex, round4_one]
    refine ⟨hmemL, fun huniq => ?_⟩
    rw [rankWithLexical, if_neg hraw]
    exact head?_sortTake_of_unique_max (topK_toNat_ne_zero cfg) hmemL huniq

/-- Claim C2, counterexample: the candidate `"other"` is not an exact match
for `"hello"` yet reaches final score `1.0` (clamped overshooting
similarity), and — the sort being stable — it stays ranked above the
exact-match candidate `"Hello"`, although no other *exact-match* tie exists.
The claim's "barring another exact-match tie" proviso is therefore too
weak. -/
theorem exact_match_not_ranked_first_counterexample :
    rank envScores20 cfgEmb valsTie "hello" =
      .ok [matchOf ⟨some 1, "d", "other", Option.none⟩ 1,
           matchOf ⟨some 2, "d", "Hello", Option.none⟩ 1] ∧
    pyCasefold (pyStrip "Hello") = pyCasefold (pyStrip "hello") ∧
    ¬ pyCasefold (pyStrip "other") = pyCasefold (pyStrip "hello") := by
  refine ⟨?_, by decide, by decide⟩
  have hcl : clamp01 2 = 1 := by norm_num [clamp01]
  have he : embMatches valsTie "hello" [2, 0] =
      [matchOf ⟨some 1, "d", "other", Option.none⟩ 1,
       matchOf ⟨some 2, "d", "Hello", Option.none⟩ 1] := by
    simp only [valsTie, embMatches, List.zip_cons_cons, List.zip_nil_right,
      List.map_cons, List.map_nil]
    rw [if_neg (by decide), if_pos (by decide), hcl, round4_one]
  have hs : envScores20.tfidfScores = .ok [2, 0] := rfl
  rw [rank, if_neg (by decide), if_neg (by decide), rankWithEmbeddings,
    if_neg (by decide), hs]
  show Except.ok ((sortDesc (embMatches valsTie "hello" [2, 0])).take
    (topK cfgEmb).toNat) = _
  rw [he, sortDesc_pair (le_refl 1), List.take_of_length_le
    (by rw [show (topK cfgEmb).toNat = 5 from by decide]; decide)]

/-- Claim C2 witness: the amended theorem on a concrete exact match. -/
theorem exact_match_scores_one_and_ranks_first_witness :
    (embMatches valsMarried "married" [0])[0]? =
      some (matchOf (valsMarried.get ⟨0, by decide⟩) 1) ∧
    (rankWithEmbeddings envScore0 cfgEmb valsMarried "married").head? =
      some (matchOf (valsMarried.get ⟨0, by decide⟩) 1) ∧
    (rankWithLexical cfgEmb valsMarried "married").head? =
      some (matchOf (valsMarried.get ⟨0, by decide⟩) 1) := by
  have hE : embMatches valsMarried "married" [0] =
      [matchOf ⟨some 1, "d", "Married", Option.none⟩ 1] := by
    simp only [valsMarried, embMatches, List.zip_cons_cons,
      List.zip_nil_right, List.map_cons, List.map_nil]
    rw [if_pos (by decide), round4_one]
  have hL : lexCandidates valsMarried "married" =
      [matchOf ⟨some 1, "d", "Married", Option.none⟩ 1] := by
    simp only [valsMarried, lexCandidates, List.filterMap_cons,
      List.filterMap_nil]
    rw [if_neg (show ¬ tokenize (canonicalAsSentence
      ⟨some 1, "d", "Married", Option.none⟩) = ∅ from by decide)]
    rw [if_pos (by decide), round4_one]
  have huniqE : ∀ m ∈ embMatches valsMarried "married" [0],
      m ≠ matchOf (valsMarried.get ⟨0, by decide⟩) 1 → m.score < 1 := by
    intro m hm hne
    rw [hE] at hm
    exact absurd (List.mem_singleton.1 hm) hne
  have huniqL : ∀ m ∈ lexCandidates valsMarried "married",
      m ≠ matchOf (valsMarried.get ⟨0, by decide⟩) 1 → m.score < 1 := by
    intro m hm hne
    rw [hL] at hm
    exact absurd (List.mem_singleton.1 hm) hne
  have h := exact_match_scores_one_and_ranks_first cfgEmb valsMarried
    "married" [0] envScore0 0 (by decide) (by decide) (by decide)
  exact ⟨h.1, h.2.1 rfl huniqE, ((h.2.2 (by decide)).2 huniqL)⟩

theorem map_filter_eq_filterMap {α β : Type} (p : α → Bool) (g : α → β)
    (l : List α) :
    (l.filter p).map g =
      l.filterMap (fun x => if p x then some (g x) else Option.none) := by
  induction l with
  | nil => rfl
  | cons a t ih =>
    rw [List.filter_cons, List.filterMap_cons]
    by_cases h : p a
    · simp [h, ih]
    · simp [h, ih]

/-- Claim C4, counterexample: a candidate whose sentence tokenizes to the
empty set (label `"-"`) is skipped by the `continue` on matcher.py line 90 —
it never receives the claimed score `0.0`, and the scorer returns `[]`
although the claim implies a single scored entry would be returned
(`top_k ≥ 1`). -/
theorem lexical_skips_empty_token_candidate_counterexample :
    rankWithLexical cfgEmb valsHyphen "hello" = [] ∧
    tokenize "hello" ≠ ∅ ∧
    tokenize (canonicalAsSentence ⟨some 1, "d", "-", Option.none⟩) = ∅ ∧
    valsHyphen ≠ [] :=
  ⟨rfl, by decide, by decide, by decide⟩

/-- Claim C4 (amended): the lexical scorer returns `[]` outright when the
query tokenizes to the empty set; otherwise it scores exactly those
candidates whose sentence token set is non-empty (the others are skipped,
not scored `0.0`), assigning the plain Jaccard quotient
`|intersection| / |union|` (whose zero-union guard is unreachable there,
since the candidate token set is non-empty) unless the exact-match override
applies. -/
theorem lexical_scoring_characterization (cfg : SystemConfig)
    (values : List CanonicalValue) (raw_text : String) :
    (tokenize raw_text = ∅ → rankWithLexical cfg values raw_text = []) ∧
    lexCandidates values raw_text =
      (values.filter
        (fun c => decide (tokenize (canonicalAsSentence c) ≠ ∅))).map
        (fun c => matchOf c (round4
          (if pyCasefold (pyStrip c.canonical_label) =
              pyCasefold (pyStrip raw_text)
           then 1
           else ((tokenize raw_text ∩
                   tokenize (canonicalAsSentence c)).card : ℚ) /
                ((tokenize raw_text ∪
                   tokenize (canonicalAsSentence c)).card : ℚ)))) := by
  constructor
  · intro h
    rw [rankWithLexical, if_pos h]
  · rw [map_filter_eq_filterMap, lexCandidates]
    apply List.filterMap_congr
    intro c _
    by_cases hc : tokenize (canonicalAsSentence c) = ∅
    · rw [if_pos hc]
      rw [if_neg (show ¬ (decide (tokenize (canonicalAsSentence c) ≠ ∅) =
        true) from by rw [hc]; decide)]
    · have hcard : (tokenize raw_text ∪
          tokenize (canonicalAsSentence c)).card ≠ 0 := by
        rw [Ne, Finset.card_eq_zero, ← Ne, ← Finset.nonempty_iff_ne_empty]
        exact Finset.Nonempty.mono Finset.subset_union_right
          (Finset.nonempty_iff_ne_empty.2 hc)
      rw [if_neg hc]
      rw [if_pos (show decide (tokenize (canonicalAsSentence c) ≠ ∅) = true
        from by simp [hc])]
      rw [show jaccardScore (tokenize raw_text)
            (tokenize (canonicalAsSentence c)) =
          ((tokenize raw_text ∩ tokenize (canonicalAsSentence c)).card : ℚ) /
          ((tokenize raw_text ∪ tokenize (canonicalAsSentence c)).card : ℚ)
        from by rw [jaccardScore, if_pos hcard]]

/-- Claim C4 witness: both branches of the amended statement on concrete
inputs. -/
theorem lexical_scoring_characterization_witness :
    tokenize " - " = ∅ ∧
    rankWithLexical cfgEmb valsAB " - " = [] ∧
    lexCandidates valsAB "alpha" =
      (valsAB.filter
        (fun c => decide (tokenize (canonicalAsSentence c) ≠ ∅))).map
        (fun c => matchOf c (round4
          (if pyCasefold (pyStrip c.canonical_label) =
              pyCasefold (pyStrip "alpha")
           then 1
           else ((tokenize "alpha" ∩
                   tokenize (canonicalAsSentence c)).card : ℚ) /
                ((tokenize "alpha" ∪
                   tokenize (canonicalAsSentence c)).card : ℚ)))) :=
  ⟨by decide,
   (lexical_scoring_characterization cfgEmb valsAB " - ").1 (by decide),
   (lexical_scoring_characterization cfgEmb valsAB "alpha").2⟩

/-- Claim C5, counterexample: with whitespace-only raw text the guard on
matcher.py line 29 returns `[]` before the External Ranking Client is even
consulted, while `_rank_with_embeddings` called directly (which only checks
for an empty candidate list) scores both candidates — so `rank` does not
equal the embedding path run directly on the same inputs.  (A whitespace
query is realizable with a successful TF-IDF stage: the vocabulary is fitted
on the candidate sentences too, and the all-zero query row yields cosine
similarity 0 for every candidate rather than an exception.) -/
theorem llm_fallback_whitespace_raw_counterexample :
    rankWithLlm envScores00 cfgLlmNoKey valsAB = .ok [] ∧
    rank envScores00 cfgLlmNoKey valsAB "  " = .ok [] ∧
    (rankWithEmbeddings envScores00 cfgLlmNoKey valsAB "  ").length = 2 := by
  refine ⟨rfl, rfl, ?_⟩
  rw [rankWithEmbeddings, if_neg (by decide)]
  show ((sortDesc (embMatches valsAB "  " [0, 0])).take
    (topK cfgLlmNoKey).toNat).length = 2
  rw [List.length_take, length_sortDesc,
    show (embMatches valsAB "  " [0, 0]).length = 2 from by
      simp [embMatches, valsAB]]
  decide

/-- Claim C5 (amended): with backend `"llm"` and a raw text whose trim is
non-empty, an empty client result makes `rank` return exactly the embedding
path's output on the same inputs, and a non-empty client result is returned
unchanged; for whitespace-only raw text `rank` instead returns `[]` without
consulting the client (see the counterexample). -/
theorem llm_empty_result_falls_back_to_embeddings (env : PyEnv)
    (cfg : SystemConfig) (values : List CanonicalValue) (raw_text : String)
    (hb : cfg.matcher_backend = "llm") (hraw : ¬ pyStrip raw_text = "") :
    (rankWithLlm env cfg values = .ok [] →
     rank env cfg values raw_text =
       .ok (rankWithEmbeddings env cfg values raw_text)) ∧
    (∀ l, rankWithLlm env cfg values = .ok l → l ≠ [] →
     rank env cfg values raw_text = .ok l) := by
  constructor
  · intro h
    rw [rank, if_neg hraw, if_pos hb, h]
    rfl
  · intro l h hne
    rw [rank, if_neg hraw, if_pos hb, h]
    show (if ¬ l.isEmpty = true then Except.ok l else _) = Except.ok l
    rw [if_pos (show ¬ l.isEmpty = true from by
      rw [List.isEmpty_iff]; exact hne)]

/-- Claim C5 witness: the fallback equality on a concrete call with missing
credentials. -/
theorem llm_empty_result_falls_back_to_embeddings_witness :
    cfgLlmNoKey.matcher_backend = "llm" ∧
    ¬ pyStrip "alpha" = "" ∧
    rankWithLlm envFail cfgLlmNoKey valsMarried = .ok [] ∧
    rank envFail cfgLlmNoKey valsMarried "alpha" =
      .ok (rankWithEmbeddings envFail cfgLlmNoKey valsMarried "alpha") :=
  ⟨rfl, by decide, rfl,
   (llm_empty_result_falls_back_to_embeddings envFail cfgLlmNoKey
     valsMarried "alpha" rfl (by decide)).1 rfl⟩

/-- The key-extraction tail of `_parse_llm_json` (matcher.py lines 291–302)
agrees with the spec's `resultsStage`-plus-filter formulation on every
decoded value. -/
theorem resultsExtraction_eq (d : PyVal) :
    (match (match d with
            | PyVal.dict entries =>
              (match dictGet entries "results" with
               | some (PyVal.list xs) => some (PyVal.list xs)
               | _ => Option.none)
            | d => some d) with
     | some (PyVal.list xs) => xs.filter PyVal.isDict
     | some _ => []
     | Option.none => []) =
    (match resultsStage d with
     | some xs => xs.filter PyVal.isDict
     | Option.none => []) := by
  cases d with
  | dict entries =>
    show (match (match dictGet entries "results" with
                 | some (PyVal.list xs) => some (PyVal.list xs)
                 | _ => Option.none) with
          | some (PyVal.list xs) => xs.filter PyVal.isDict
          | some _ => []
          | Option.none => []) = _
    rw [resultsStage]
    cases h : dictGet entries "results" with
    | none => rfl
    | some v => cases v <;> rfl
  | list xs => rfl
  | none => rfl
  | bool b => rfl
  | int n => rfl
  | float q => rfl
  | str s => rfl

/-- Claim C6: for every `json.loads` behaviour with `json.loads "" =
failure` (a fact of JSON) and every content string, `_parse_llm_json` equals
the spec's staged pipeline: strip the code fence taking the content after
its first line, attempt a direct parse, on failure parse the first-`[` to
last-`]` substring, accept an object only through a list-valued `results`
key, discard non-object entries, and return `[]` on any parse failure. -/
theorem parse_llm_json_matches_spec_pipeline (env : PyEnv)
    (content : String) (hjs : env.jsonLoads "" = Option.none) :
    parseLlmJson env content = parseLlmJsonSpec env content := by
  simp only [parseLlmJson, parseLlmJsonSpec]
  by_cases h0 : pyStrip content = ""
  · rw [if_pos h0, h0]
    rw [show fenceStage "" = "" from rfl]
    rw [directParseStage, hjs]
    rw [show bracketStage env "" = Option.none from rfl]
    rfl
  · rw [if_neg h0]
    rw [show fenceStage (pyStrip content) =
        (if (pyStrip content).startsWith "```" then
          pyStrip (match (splitOnce '\n'
              (stripChars (fun x => x = '`') (pyStrip content)).data).2 with
            | some rest => ⟨rest⟩
            | Option.none => ⟨(splitOnce '\n'
                (stripChars (fun x => x = '`') (pyStrip content)).data).1⟩)
        else pyStrip content) from rfl]
    generalize (if (pyStrip content).startsWith "```" then
          pyStrip (match (splitOnce '\n'
              (stripChars (fun x => x = '`') (pyStrip content)).data).2 with
            | some rest => ⟨rest⟩
            | Option.none => ⟨(splitOnce '\n'
                (stripChars (fun x => x = '`') (pyStrip content)).data).1⟩)
        else pyStrip content) = T
    rw [directParseStage]
    cases hj : env.jsonLoads T with
    | some d => exact resultsExtraction_eq d
    | none =>
      rw [bracketStage]
      cases hf : firstIdx T '[' with
      | none => rfl
      | some s =>
        cases hl : lastIdx T ']' with
        | none => rfl
        | some e =>
          dsimp only
          by_cases hse : e ≤ s
          · rw [if_pos hse, if_neg (by omega)]
            rfl
          · rw [if_neg hse, if_pos (by omega)]
            cases hj2 : env.jsonLoads (pySlice T s (e + 1)) with
            | none => rfl
            | some d => exact resultsExtraction_eq d

/-- Claim C6 witness: the equivalence instantiated with a concrete failing
parser and content. -/
theorem parse_llm_json_matches_spec_pipeline_witness :
    envFail.jsonLoads "" = Option.none ∧
    parseLlmJson envFail "```json\nnot json```" =
      parseLlmJsonSpec envFail "```json\nnot json```" :=
  ⟨rfl, parse_llm_json_matches_spec_pipeline envFail
    "```json\nnot json```" rfl⟩

/-- Claim C7 (code bug): with backend `"llm"`, offline mode, a non-empty
candidate list and an Ollama payload `{"message": {"content": 123}}`, the
truthy non-string content reaches `_parse_llm_json`, whose very first
expression `(content or "").strip()` raises `AttributeError`; no enclosing
handler catches it, so `rank` raises instead of returning a list —
contradicting the spec's guarantee that all external-service and parsing
failures are swallowed. -/
theorem rank_raises_on_nonstring_ollama_content :
    rank envOllamaInt cfgOffline valsAB "x" = .error .attributeError := rfl

/-- Claim C9, counterexample: `"-"` is a non-empty string whose token set is
empty, so its self-similarity is `0.0`, not the claimed `1.0`. -/
theorem lex_score_self_hyphen_counterexample :
    lexScore "-" "-" = 0 ∧ ("-" : String) ≠ "" := ⟨rfl, by decide⟩

/-- Claim C9 (amended): the lexical Jaccard score is symmetric for all
strings, and `score(A, A) = 1.0` whenever `A`'s token set is non-empty (a
non-empty string of hyphens/whitespace only has an empty token set and
scores `0.0` against itself). -/
theorem lex_score_symmetric_and_self_one (a b : String) :
    lexScore a b = lexScore b a ∧ (tokenize a ≠ ∅ → lexScore a a = 1) := by
  constructor
  · rw [lexScore, lexScore, jaccardScore, jaccardScore, Finset.union_comm,
      Finset.inter_comm]
  · intro h
    rw [lexScore, jaccardScore, Finset.union_self, Finset.inter_self]
    have hc : (tokenize a).card ≠ 0 := by
      rw [Ne, Finset.card_eq_zero]
      exact h
    rw [if_pos hc]
    exact div_self (by exact_mod_cast hc)

/-- Claim C9 witness: symmetry and self-similarity on concrete strings. -/
theorem lex_score_symmetric_and_self_one_witness :
    lexScore "ab" "cd" = lexScore "cd" "ab" ∧
    tokenize "ab" ≠ ∅ ∧ lexScore "ab" "ab" = 1 :=
  ⟨(lex_score_symmetric_and_self_one "ab" "cd").1, by decide,
   (lex_score_symmetric_and_self_one "ab" "ab").2 (by decide)⟩

theorem mem_of_getLast? {α : Type} {l : List α} {a : α}
    (h : l.getLast? = some a) : a ∈ l := by
  rw [List.getLast?_eq_getElem?] at h
  obtain ⟨hlt, heq⟩ := List.getElem?_eq_some_iff.1 h
  exact heq ▸ List.getElem_mem hlt

/-- Whatever `_build_matches_from_rankings` resolves comes from the lookup
dict, whose comprehension keeps only candidates with a non-`None` id. -/
theorem lookupCanonical_mem {values : List CanonicalValue}
    {key : Option PyVal} {c : CanonicalValue}
    (h : lookupCanonical values key = some c) :
    c ∈ values ∧ c.id.isSome = true := by
  rw [lookupCanonical.eq_def] at h
  cases key with
  | none => cases h
  | some v =>
    have hm := mem_of_getLast? h
    have hf := List.mem_filter.1 hm
    refine ⟨hf.1, ?_⟩
    have h2 := hf.2
    cases hid : c.id with
    | none => rw [hid] at h2; cases h2
    | some i => rfl

/-- Claim C10: a candidate without an identifier is still scored by the
embedding and lexical paths and returned with `canonical_id = 0`, while the
LLM path omits it from the prompt options (they equal the options of the
id-filtered list, and every option's id stems from a candidate) and never
returns it (every built match resolves through the id-keyed lookup to a
candidate with a present id). -/
theorem absent_id_candidate_scored_but_never_from_llm :
    (∀ (values : List CanonicalValue) (o : LlmOption),
      o ∈ buildLlmOptions values → ∃ c, c ∈ values ∧ c.id = some o.id) ∧
    (∀ values : List CanonicalValue,
      buildLlmOptions values =
        buildLlmOptions (values.filter (fun c => c.id.isSome))) ∧
    (∀ (env : PyEnv) (cfg : SystemConfig) (values : List CanonicalValue)
       (rankings : List PyVal) (m : MatchCandidate),
      m ∈ buildMatchesFromRankings env cfg values rankings →
      ∃ c, c ∈ values ∧ c.id.isSome = true ∧
        m.canonical_id = c.id.getD 0 ∧
        m.canonical_label = c.canonical_label ∧
        m.dimension = c.dimension ∧ m.description = c.description) ∧
    rankWithEmbeddings envScore0 cfgEmb valsNoId "x" =
      [matchOf ⟨Option.none, "marital", "married", Option.none⟩ 0] ∧
    rankWithLexical cfgEmb valsNoId "married" =
      [matchOf ⟨Option.none, "marital", "married", Option.none⟩ 1] ∧
    (matchOf ⟨Option.none, "marital", "married", Option.none⟩
      (0 : ℚ)).canonical_id = 0 := by
  refine ⟨?_, ?_, ?_, ?_, ?_, rfl⟩
  · intro values o ho
    rw [buildLlmOptions, List.mem_filterMap] at ho
    obtain ⟨c, hc, hco⟩ := ho
    cases hid : c.id with
    | none => rw [hid] at hco; cases hco
    | some i =>
      rw [hid] at hco
      rw [Option.some_inj] at hco
      exact ⟨c, hc, by rw [hid, ← hco]⟩
  · intro values
    rw [buildLlmOptions, buildLlmOptions, List.filterMap_filter]
    apply List.filterMap_congr
    intro c _
    cases hid : c.id with
    | none => rw [if_neg (show ¬ (Option.isSome
        (Option.none : Option ℤ) = true) from by decide)]
    | some i => rw [if_pos (show Option.isSome (some i) = true from rfl)]
  · intro env cfg values rankings m hm
    rw [buildMatchesFromRankings] at hm
    split at hm
    · cases hm
    · have hm2 := mem_sortDesc.1 (List.mem_of_mem_take hm)
      rw [List.mem_filterMap] at hm2
      obtain ⟨item, _, hitem⟩ := hm2
      split at hitem
      · split at hitem
        · cases hitem
        · next canonical hlook =>
          split at hitem
          · cases hitem
          · rw [Option.some_inj] at hitem
            subst hitem
            obtain ⟨hmem, hsome⟩ := lookupCanonical_mem hlook
            exact ⟨canonical, hmem, hsome, rfl, rfl, rfl, rfl⟩
      · cases hitem
  · have hcl : clamp01 0 = 0 := by norm_num [clamp01]
    have he : embMatches valsNoId "x" [0] =
        [matchOf ⟨Option.none, "marital", "married", Option.none⟩ 0] := by
      simp only [valsNoId, embMatches, List.zip_cons_cons,
        List.zip_nil_right, List.map_cons, List.map_nil]
      rw [if_neg (by decide), hcl, round4_zero]
    rw [rankWithEmbeddings, if_neg (by decide),
      show envScore0.tfidfScores = .ok [0] from rfl]
    show (sortDesc (embMatches valsNoId "x" [0])).take
      (topK cfgEmb).toNat = _
    rw [he, sortDesc_single, List.take_of_length_le
      (by rw [show (topK cfgEmb).toNat = 5 from by decide]; decide)]
  · have hl : lexCandidates valsNoId "married" =
        [matchOf ⟨Option.none, "marital", "married", Option.none⟩ 1] := by
      simp only [valsNoId, lexCandidates, List.filterMap_cons,
        List.filterMap_nil]
      rw [if_neg (show ¬ tokenize (canonicalAsSentence
        ⟨Option.none, "marital", "married", Option.none⟩) = ∅ from by
          decide)]
      rw [if_pos (by decide), round4_one]
    rw [rankWithLexical, if_neg (by decide), hl, sortDesc_single,
      List.take_of_length_le
        (by rw [show (topK cfgEmb).toNat = 5 from by decide]; decide)]

/-- Claim C10 witness: the option-provenance part instantiated on a concrete
candidate list. -/
theorem absent_id_candidate_scored_but_never_from_llm_witness :
    (⟨1, "Married", "d", ""⟩ : LlmOption) ∈ buildLlmOptions valsMarried ∧
    (∃ c, c ∈ valsMarried ∧
      c.id = some (⟨1, "Married", "d", ""⟩ : LlmOption).id) :=
  ⟨by decide, absent_id_candidate_scored_but_never_from_llm.1 valsMarried
    ⟨1, "Married", "d", ""⟩ (by decide)⟩

end RefdataHub
